import Mathlib

/-!
Shallow embedding of the Power Pages web-extension virtual file system,
translated from `src/web/client/dal/fileSystemProvider.ts` of the
`powerplatform-vscode` repository, together with the pieces of shared
context it consults.  Machine-level details that the claims do not touch
(telemetry payloads, progress UI, authentication tokens) are abstracted;
the tree, the lookup algorithm, the error taxonomy, the change events and
the dirty-flag bookkeeping are modelled faithfully, statement by statement.

Remote collaborators that are not part of the provided sources
(`remoteSaveProvider.saveData`, `remoteFetchProvider`,
`urlBuilderUtil.pathHasEntityFolderName`) are modelled from the
specification, and are marked as such in their doc comments.
-/

/-- JS `Map.get`: the value of the first binding for the key, if any. -/
def mapGet {α : Type} (m : List (String × α)) (k : String) : Option α :=
  match m with
  | [] => none
  | (k', v) :: rest => if k' = k then some v else mapGet rest k

/-- JS `Map.set`: replace the binding for the key in place (keeping its
position in insertion order), or append a fresh binding at the end. -/
def mapSet {α : Type} (m : List (String × α)) (k : String) (v : α) : List (String × α) :=
  match m with
  | [] => [(k, v)]
  | (k', v') :: rest => if k' = k then (k, v) :: rest else (k', v') :: mapSet rest k v

/-- Number of bindings an association list holds for a key. -/
def countKey {α : Type} (m : List (String × α)) (k : String) : Nat :=
  (m.filter (fun p => p.1 = k)).length

/-- JS `String.prototype.split("/")`: cut the string at every slash,
keeping empty pieces (so a leading slash yields a leading `""`). -/
def splitOnSlash (s : String) : List String :=
  splitSlashAux s.data []
where
  splitSlashAux : List Char → List Char → List String
    | [], acc => [String.mk acc.reverse]
    | c :: rest, acc =>
      if c = '/' then String.mk acc.reverse :: splitSlashAux rest []
      else splitSlashAux rest (c :: acc)

/-- Does `sub` occur at the start of `s`? (char-list helper). -/
def strStarts : List Char → List Char → Bool
  | [], _ => true
  | _ :: _, [] => false
  | a :: as, b :: bs => a = b && strStarts as bs

/-- JS `String.prototype.includes`: does `sub` occur somewhere in `s`? -/
def hasSub (s sub : String) : Bool :=
  go sub.data s.data
where
  go (sub : List Char) : List Char → Bool
    | [] => strStarts sub []
    | c :: rest => strStarts sub (c :: rest) || go sub rest

/-- JS `String.prototype.toLowerCase` for the ASCII range, as applied to
the uri strings `readDirectory` compares. -/
def toLowerStr (s : String) : String :=
  String.mk (s.data.map (fun c =>
    if 'A' ≤ c ∧ c ≤ 'Z' then Char.ofNat (c.toNat + 32) else c))

/-- Node `path.posix.basename(p)` (no extension argument): the last
portion of the path, with trailing slashes ignored. -/
def posixBasename (p : String) : String :=
  let r1 := (p.data.reverse).dropWhile (fun c => c = '/')
  String.mk ((r1.takeWhile (fun c => c ≠ '/')).reverse)

/-- Node `path.posix.dirname(p)`: everything before the last slash that
precedes the basename, with Node's exact edge cases (empty path and
pathless strings give `"."`, a bare root gives `"/"`, the double-root
quirk gives `"//"`). -/
def posixDirname (p : String) : String :=
  if p = "" then "."
  else
    let hasRoot : Bool := match p.data with | '/' :: _ => true | _ => false
    let r1 := (p.data.reverse).dropWhile (fun c => c = '/')
    let r2 := r1.dropWhile (fun c => c ≠ '/')
    match r2 with
    | [] => if hasRoot then "/" else "."
    | _ :: rest =>
      if rest.isEmpty then (if hasRoot then "/" else ".")
      else if hasRoot && (rest == ['/']) then "//"
      else String.mk rest.reverse

/-- `vscode.FileType`, as carried by `File.type` and `Directory.type`. -/
inductive FileType : Type where
  | file
  | directory
deriving DecidableEq, Repr

/-- The VFS tree node: the `File` and `Directory` classes of
`fileSystemProvider.ts`, merged into one tagged variant.  A `File` holds
byte content (`Uint8Array`, modelled as a list of bytes); a `Directory`
holds an insertion-ordered map from child name to child entry.  Both
constructors carry the `ctime`, `mtime`, `size` and `name` fields their
classes declare. -/
inductive Entry : Type where
  | file (ctime mtime size : Nat) (name : String) (data : List Nat)
  | dir (ctime mtime size : Nat) (name : String) (entries : List (String × Entry))

/-- `entry instanceof Directory`. -/
def Entry.isDir : Entry → Bool
  | .dir _ _ _ _ _ => true
  | .file _ _ _ _ _ => false

/-- `entry instanceof File`. -/
def Entry.isFile : Entry → Bool
  | .file _ _ _ _ _ => true
  | .dir _ _ _ _ _ => false

/-- The `type` field of an entry. -/
def Entry.type : Entry → FileType
  | .file _ _ _ _ _ => .file
  | .dir _ _ _ _ _ => .directory

def Entry.ctime : Entry → Nat
  | .file c _ _ _ _ => c
  | .dir c _ _ _ _ => c

def Entry.mtime : Entry → Nat
  | .file _ m _ _ _ => m
  | .dir _ m _ _ _ => m

def Entry.size : Entry → Nat
  | .file _ _ s _ _ => s
  | .dir _ _ s _ _ => s

def Entry.name : Entry → String
  | .file _ _ _ n _ => n
  | .dir _ _ _ n _ => n

/-- The byte content of a file entry (empty for directories). -/
def Entry.data : Entry → List Nat
  | .file _ _ _ _ d => d
  | .dir _ _ _ _ _ => []

/-- The child map of a directory entry (empty for files). -/
def Entry.entriesOf : Entry → List (String × Entry)
  | .dir _ _ _ _ es => es
  | .file _ _ _ _ _ => []

/-- `vscode.Uri`, abstracted to the three projections this code consults:
`uri.path` (walked by `_lookup`), `uri.toString()` (compared against the
root directory) and `uri.fsPath` (the key of the per-file metadata map). -/
structure Uri where
  path : String
  str : String
  fsPath : String
deriving DecidableEq, Repr

/-- `uri.with` applied to a path replacement, as in
`uri.with` of the dirname in `_lookupParentDirectory` and
`createDirectory`; only the `path` component is replaced. -/
def Uri.withPath (u : Uri) (p : String) : Uri :=
  { u with path := p }

/-- The `vscode.FileSystemError` variants this provider raises, plus the
failure of the remote save (whose exception propagates out of
`writeFile`).  The constructors carry a uri exactly where the source
passes one (`FileNotFound` is always thrown without a uri here). -/
inductive FSError : Type where
  | fileNotFound
  | fileIsADirectory (uri : Uri)
  | fileNotADirectory (uri : Uri)
  | fileExists (uri : Uri)
  | saveFailed
deriving DecidableEq, Repr

/-- `vscode.FileChangeType`. -/
inductive FileChangeType : Type where
  | changed
  | created
  | deleted
deriving DecidableEq, Repr

/-- `vscode.FileChangeEvent`, as passed to `_fireSoon`. -/
structure FileChangeEvent where
  type : FileChangeType
  uri : Uri
deriving DecidableEq, Repr

/-- Modelled from the spec: `FileData` (`context/fileData.ts`, not under
`src/`) — per-file metadata keyed by `uri.fsPath`, holding the remote
linkage (entity name, entity record id) and the dirty flag consulted by
`writeFile`. -/
structure FileData where
  entityName : String
  entityId : String
  hasDirtyChanges : Bool
deriving DecidableEq, Repr

/-- The slice of `WebExtensionContext` the provider reads:
`isContextSet`, `rootDirectory.toString()`, and (modelled from the spec,
`urlBuilderUtil.pathHasEntityFolderName` not being under `src/`) the
predicate recognising entity folder names in a uri string. -/
structure WebExtensionCtx where
  isContextSet : Bool
  rootDirectory : String
  hasEntityFolderName : String → Bool

namespace PortalsFS

/-- `PortalsFS._lookup(uri, silent)`, on the already-split path: walk the
parts from the root, skipping empty parts; on a missing child, silent
mode answers `undefined` (here `.ok none`) and non-silent mode throws
`FileNotFound`.  A `File` reached mid-path has no children, so the next
part misses. -/
def lookup (silent : Bool) : Entry → List String → Except FSError (Option Entry)
  | e, [] => .ok (some e)
  | e, part :: rest =>
    if part = "" then lookup silent e rest
    else
      match (match e with
             | .dir _ _ _ _ ents => mapGet ents part
             | .file _ _ _ _ _ => none) with
      | none => if silent then .ok none else .error .fileNotFound
      | some child => lookup silent child rest

/-- `PortalsFS._lookupAsDirectory`: `_lookup`, then insist on a
`Directory` (an `undefined` silent result also fails the `instanceof`
check and raises `FileNotADirectory(uri)`). -/
def lookupAsDirectory (root : Entry) (uri : Uri) (silent : Bool) : Except FSError Entry :=
  match lookup silent root (splitOnSlash uri.path) with
  | .ok (some e) =>
    match e with
    | .dir _ _ _ _ _ => .ok e
    | .file _ _ _ _ _ => .error (.fileNotADirectory uri)
  | .ok none => .error (.fileNotADirectory uri)
  | .error err => .error err

/-- `PortalsFS._lookupAsFile`: `_lookup`, then insist on a `File`. -/
def lookupAsFile (root : Entry) (uri : Uri) (silent : Bool) : Except FSError Entry :=
  match lookup silent root (splitOnSlash uri.path) with
  | .ok (some e) =>
    match e with
    | .file _ _ _ _ _ => .ok e
    | .dir _ _ _ _ _ => .error (.fileIsADirectory uri)
  | .ok none => .error (.fileIsADirectory uri)
  | .error err => .error err

/-- `PortalsFS._lookupParentDirectory`: resolve the posix dirname of the
uri as a directory, non-silently. -/
def lookupParentDirectory (root : Entry) (uri : Uri) : Except FSError Entry :=
  lookupAsDirectory root (uri.withPath (posixDirname uri.path)) false

/-- `PortalsFS.stat`: `_lookup(uri, false)` returned as the entry's
metadata.  (Non-silent lookup never yields `undefined`, so the middle
branch is unreachable.) -/
def stat (root : Entry) (uri : Uri) : Except FSError Entry :=
  match lookup false root (splitOnSlash uri.path) with
  | .ok (some e) => .ok e
  | .ok none => .error .fileNotFound
  | .error err => .error err

end PortalsFS

/-- Spec-side description of the lookup algorithm, for comparison with
`PortalsFS.lookup`: tokenize by slash, skip empty segments, walk the
child maps from the root; `none` on the first unresolvable segment. -/
def walk : Entry → List String → Option Entry
  | e, [] => some e
  | e, s :: rest =>
    match e with
    | .dir _ _ _ _ ents =>
      match mapGet ents s with
      | some c => walk c rest
      | none => none
    | .file _ _ _ _ _ => none

/-- The nonempty path segments of a path string. -/
def segsOf (p : String) : List String :=
  (splitOnSlash p).filter (fun s => s ≠ "")

/-- The functional rendering of the in-place mutations the provider
performs on an entry it has looked up: walk the same split parts as
`PortalsFS.lookup` (skipping empty parts) and rebuild the tree with `f`
applied to the entry reached.  On a path that does not resolve the tree
is returned unchanged (the provider only mutates entries it has just
successfully looked up). -/
def updateAt : Entry → List String → (Entry → Entry) → Entry
  | e, [], f => f e
  | e, part :: rest, f =>
    if part = "" then updateAt e rest f
    else
      match e with
      | .dir ct mt sz nm ents =>
        match mapGet ents part with
        | some c => .dir ct mt sz nm (mapSet ents part (updateAt c rest f))
        | none => .dir ct mt sz nm ents
      | .file ct mt sz nm d => .file ct mt sz nm d

/-- `updateAt` on an already-filtered segment list (no empty segments to
skip); the bridge between the two is proved below. -/
def updSegs : Entry → List String → (Entry → Entry) → Entry
  | e, [], f => f e
  | e, s :: rest, f =>
    match e with
    | .dir ct mt sz nm ents =>
      match mapGet ents s with
      | some c => .dir ct mt sz nm (mapSet ents s (updSegs c rest f))
      | none => .dir ct mt sz nm ents
    | .file ct mt sz nm d => .file ct mt sz nm d

/-- Replace (or add) the child binding `bname` of a directory entry,
leaving any other entry untouched: `parent.entries.set(bname, child)`. -/
def setChild (bname : String) (child : Entry) : Entry → Entry
  | .dir ct mt sz nm ents => .dir ct mt sz nm (mapSet ents bname child)
  | .file ct mt sz nm d => .file ct mt sz nm d

/-- The mutation `createDirectory` performs on the resolved parent:
`parent.entries.set(entry.name, entry)`, `parent.mtime = Date.now()`,
`parent.size += 1`. -/
def addChildDir (bname : String) (child : Entry) (now : Nat) : Entry → Entry
  | .dir ct _ sz nm ents => .dir ct now (sz + 1) nm (mapSet ents bname child)
  | .file ct mt sz nm d => .file ct mt sz nm d

/-- Modelled from the spec: the effect of `remoteSaveProvider.saveData`
(not under `src/`) on the per-file metadata when the remote PATCH
succeeds — the file's dirty flag is cleared; on failure `saveData`
raises and the dirty flag is left set (that failure path is taken by
`PortalsFS.writeFile` below when its `saveOk` input is `false`). -/
def saveData (fdm : List (String × FileData)) (k : String) : List (String × FileData) :=
  match mapGet fdm k with
  | some fd => mapSet fdm k { fd with hasDirtyChanges := false }
  | none => fdm

/-- `WebExtensionContext.fileDataMap.getFileMap.get(uri.fsPath)?.hasDirtyChanges`,
with JS optional chaining (`undefined` is falsy). -/
def isDirty (fdm : List (String × FileData)) (k : String) : Bool :=
  match mapGet fdm k with
  | some fd => fd.hasDirtyChanges
  | none => false

namespace PortalsFS

/-- Result of a `readDirectory` call: the listed pairs, the tree after
the call, and how many times `_loadFromDataverseToVFS` ran. -/
structure ReadDirOutcome where
  listing : List (String × FileType)
  root : Entry
  loadCalls : Nat

/-- `PortalsFS.readDirectory`: list the `(name, type)` pairs of the
directory's children; on failure, if the error is `FileNotFound`, the
context is set and the uri string equals the configured root directory
(compared lowercased), trigger one `_loadFromDataverseToVFS` — and then
return the `result` accumulated so far (which is still empty; there is
no re-resolution in this call).  The effect of the remote load on the
tree is abstracted by the `load` parameter. -/
def readDirectory (ctx : WebExtensionCtx) (load : Entry → Entry) (root : Entry)
    (uri : Uri) : ReadDirOutcome :=
  match lookupAsDirectory root uri false with
  | .ok entry => ⟨entry.entriesOf.map (fun p => (p.1, p.2.type)), root, 0⟩
  | .error .fileNotFound =>
    if ctx.isContextSet && (toLowerStr uri.str == toLowerStr ctx.rootDirectory) then
      ⟨[], load root, 1⟩
    else ⟨[], root, 0⟩
  | .error _ => ⟨[], root, 0⟩

/-- Result of a `readFile` call: the returned bytes (or the error that
propagates out of the un-guarded retry lookup), the tree after the
call, and how many times `_loadFromDataverseToVFS` ran. -/
structure ReadFileOutcome where
  result : Except FSError (List Nat)
  root : Entry
  loadCalls : Nat

/-- `PortalsFS.readFile`: return the file's bytes; on a `FileNotFound`
lookup failure, when the context is set, the uri string contains the
root directory string and the path has a recognized entity folder name,
run one `_loadFromDataverseToVFS` and retry the lookup exactly once (the
retry is outside the `try`, so its failure propagates); in every other
failure case return an empty byte array. -/
def readFile (ctx : WebExtensionCtx) (load : Entry → Entry) (root : Entry)
    (uri : Uri) : ReadFileOutcome :=
  match lookupAsFile root uri false with
  | .ok f => ⟨.ok f.data, root, 0⟩
  | .error .fileNotFound =>
    if ctx.isContextSet && hasSub uri.str ctx.rootDirectory
        && ctx.hasEntityFolderName uri.str then
      match lookupAsFile (load root) uri false with
      | .ok f => ⟨.ok f.data, load root, 1⟩
      | .error e => ⟨.error e, load root, 1⟩
    else ⟨.ok [], root, 0⟩
  | .error _ => ⟨.ok [], root, 0⟩

/-- Result of a `writeFile` call: the outcome (an exception or unit),
the tree, the per-file metadata map, the change events handed to
`_fireSoon` in order, and the number of `_saveFileToDataverseFromVFS`
calls performed. -/
structure WriteOutcome where
  result : Except FSError Unit
  root : Entry
  fileDataMap : List (String × FileData)
  events : List FileChangeEvent
  saveCalls : Nat

/-- `PortalsFS.writeFile`: resolve the parent directory (non-silently),
fetch the entry named by the posix basename, run the three guard checks
in source order (`FileIsADirectory`, `FileNotFound`, `FileExists`), then
either create a fresh `File` (firing `Created`) or — when the existing
target's `FileData` is marked dirty — perform exactly one remote save
before anything is overwritten.  On save success (`saveOk = true`) the
dirty flag is cleared by `saveData`; on save failure the exception
propagates with the tree, metadata and events untouched.  Finally the
entry's `mtime`, `size` and `data` are set (`Date.now()` is the `now`
input) and `Changed` fires. -/
def writeFile (root : Entry) (fdm : List (String × FileData)) (uri : Uri)
    (content : List Nat) (create overwrite : Bool) (now : Nat) (saveOk : Bool) :
    WriteOutcome :=
  let bname := posixBasename uri.path
  let dirParts := splitOnSlash (posixDirname uri.path)
  match lookupParentDirectory root uri with
  | .error e => ⟨.error e, root, fdm, [], 0⟩
  | .ok parent =>
    match mapGet parent.entriesOf bname with
    | some entry =>
      if entry.isDir then ⟨.error (.fileIsADirectory uri), root, fdm, [], 0⟩
      else if create && !overwrite then ⟨.error (.fileExists uri), root, fdm, [], 0⟩
      else
        let newFile := Entry.file entry.ctime now content.length entry.name content
        if isDirty fdm uri.fsPath then
          if saveOk then
            ⟨.ok (), updateAt root dirParts (setChild bname newFile),
              saveData fdm uri.fsPath, [⟨.changed, uri⟩], 1⟩
          else ⟨.error .saveFailed, root, fdm, [], 1⟩
        else
          ⟨.ok (), updateAt root dirParts (setChild bname newFile), fdm,
            [⟨.changed, uri⟩], 0⟩
    | none =>
      if !create then ⟨.error .fileNotFound, root, fdm, [], 0⟩
      else
        let newFile := Entry.file now now content.length bname content
        ⟨.ok (), updateAt root dirParts (setChild bname newFile), fdm,
          [⟨.created, uri⟩, ⟨.changed, uri⟩], 0⟩

/-- Result of a `createDirectory` call. -/
structure MkdirOutcome where
  result : Except FSError Unit
  root : Entry
  events : List FileChangeEvent

/-- `PortalsFS.createDirectory`: a silent lookup probes for an existing
entry — any hit makes the call a no-op with no events; on a miss the
posix dirname is resolved as a directory non-silently (a missing parent
raises), a fresh `Directory` is inserted, the parent's `mtime` is
updated and its `size` incremented, and `Changed` (parent) plus
`Created` (new directory) fire. -/
def createDirectory (root : Entry) (uri : Uri) (now : Nat) : MkdirOutcome :=
  match lookup true root (splitOnSlash uri.path) with
  | .ok (some _) => ⟨.ok (), root, []⟩
  | .error e => ⟨.error e, root, []⟩
  | .ok none =>
    let bname := posixBasename uri.path
    let dirUri := uri.withPath (posixDirname uri.path)
    match lookupAsDirectory root dirUri false with
    | .error e => ⟨.error e, root, []⟩
    | .ok _ =>
      let child := Entry.dir now now 0 bname []
      let root2 := updateAt root (splitOnSlash dirUri.path) (addChildDir bname child now)
      ⟨.ok (), root2, [⟨.changed, dirUri⟩, ⟨.created, uri⟩]⟩

end PortalsFS

/-- The response one entity-type GET yields: the transport flag
(`response.ok`) and the result payload (`none` models a null/absent
`value`; `some n` a payload of `n` records). -/
structure FetchResponse where
  ok : Bool
  value : Option Nat
deriving DecidableEq, Repr

/-- The user-visible and telemetry effects of a fetch pass, in order. -/
inductive FetchEvent : Type where
  | apiSuccess
  | apiFailure
  | errorDialog (title msg : String)
  | errorNotification (msg : String)
  | recordProcessed
deriving DecidableEq, Repr

/-- Modelled from the spec: the handling of one entity type inside
`remoteFetchProvider.fetchDataFromDataverseAndUpdateVFS` (the file is
not under `src/`; only its integration tests are).  On transport failure
a `"Failed to fetch file content."` notification and an API-failure
telemetry event are recorded and the error handler then shows the dialog
titled `"There was a problem opening the workspace"` with one more
API-failure event (its tests assert two failure-telemetry calls and one
dialog for this case); on a null/absent result payload the dialog is
shown with one API-failure event; on success an API-success event is
recorded and each returned record is processed.  No case aborts: the
caller moves on to the next entity type. -/
def fetchEntity (r : FetchResponse) : List FetchEvent :=
  if r.ok = false then
    [.errorNotification "Failed to fetch file content.", .apiFailure,
     .errorDialog "There was a problem opening the workspace"
       "We encountered an error preparing the file for edit.", .apiFailure]
  else
    match r.value with
    | none =>
      [.errorDialog "There was a problem opening the workspace"
         "We encountered an error preparing the file for edit.", .apiFailure]
    | some n => .apiSuccess :: List.replicate n .recordProcessed

/-- Modelled from the spec: the whole fetch pass over the configured
entity types — each entity type is handled in declared order and the
pass always resolves (it is total; a failing entity type never aborts
the remaining ones). -/
def fetchDataFromDataverseAndUpdateVFS : List FetchResponse → List FetchEvent
  | [] => []
  | r :: rest => fetchEntity r ++ fetchDataFromDataverseAndUpdateVFS rest

/-- Number of error dialogs with the given title in a fetch trace. -/
def countDialogs (tr : List FetchEvent) (t : String) : Nat :=
  (tr.filter (fun e => match e with | .errorDialog t' _ => t' = t | _ => false)).length

/-- Number of API-failure telemetry events in a fetch trace. -/
def countFailures (tr : List FetchEvent) : Nat :=
  (tr.filter (fun e => match e with | .apiFailure => true | _ => false)).length

/-- Number of error notifications with the given text in a fetch trace. -/
def countNotifs (tr : List FetchEvent) (m : String) : Nat :=
  (tr.filter (fun e => match e with | .errorNotification m' => m' = m | _ => false)).length

/-! Concrete fixtures, used by the witness and counterexample theorems
below.  `wRoot` is a small populated tree; `wEmptyRoot` a fresh root;
`wLoadedRoot` the tree a remote load materializes. -/

def wFile : Entry := .file 1 1 2 "a.txt" [10, 20]

def wSite : Entry := .dir 0 0 1 "site" [("a.txt", wFile)]

def wRoot : Entry := .dir 0 0 1 "" [("site", wSite)]

def wEmptyRoot : Entry := .dir 0 0 0 "" []

def wHomeFile : Entry := .file 2 2 0 "home.html" []

def wLoadedRoot : Entry :=
  .dir 0 0 1 "" [("site", .dir 0 0 2 "site" [("home.html", wHomeFile)])]

def wLoad : Entry → Entry := fun _ => wLoadedRoot

def wCtx : WebExtensionCtx := ⟨true, "vfs:/site/", fun _ => true⟩

def wCtxOff : WebExtensionCtx := ⟨false, "vfs:/site/", fun _ => false⟩

def wFileUri : Uri := ⟨"/site/a.txt", "vfs:/site/a.txt", "/site/a.txt"⟩

def wNewUri : Uri := ⟨"/site/b.txt", "vfs:/site/b.txt", "/site/b.txt"⟩

def wDirUri : Uri := ⟨"/site", "vfs:/site", "/site"⟩

def wSubUri : Uri := ⟨"/site/sub", "vfs:/site/sub", "/site/sub"⟩

def wMissUri : Uri := ⟨"/site/zzz", "vfs:/site/zzz", "/site/zzz"⟩

def wDeepUri : Uri := ⟨"/site/a.txt/x", "vfs:/site/a.txt/x", "/site/a.txt/x"⟩

def wHomeUri : Uri := ⟨"/site/home.html", "vfs:/site/home.html", "/site/home.html"⟩

def wRootUri : Uri := ⟨"/site/", "vfs:/site/", "/site/"⟩

def wOrphanUri : Uri := ⟨"/nope/sub", "vfs:/nope/sub", "/nope/sub"⟩

def wFdmDirty : List (String × FileData) := [("/site/a.txt", ⟨"webpages", "id1", true⟩)]

def wFdmClean : List (String × FileData) := [("/site/a.txt", ⟨"webpages", "id1", false⟩)]

/-! ### Helper lemmas -/

theorem segsOf_def (p : String) : segsOf p = (splitOnSlash p).filter (fun s => s ≠ "") := rfl

theorem mapGet_mapSet_self {α : Type} (m : List (String × α)) (k : String) (v : α) :
    mapGet (mapSet m k v) k = some v := by
  induction m with
  | nil => simp [mapSet, mapGet]
  | cons p rest ih =>
    obtain ⟨k', v'⟩ := p
    by_cases h : k' = k
    · simp [mapSet, mapGet, h]
    · simp [mapSet, mapGet, h, ih]

theorem countKey_mapSet_of_none {α : Type} (m : List (String × α)) (k : String) (v : α)
    (h : mapGet m k = none) : countKey (mapSet m k v) k = 1 := by
  induction m with
  | nil => simp [mapSet, countKey]
  | cons p rest ih =>
    obtain ⟨k', v'⟩ := p
    by_cases hk : k' = k
    · simp [mapGet, hk] at h
    · simp [mapGet, hk] at h
      simp only [mapSet, if_neg hk]
      simpa [countKey, hk] using ih h

theorem lookup_eq_walk (silent : Bool) (parts : List String) (e : Entry) :
    PortalsFS.lookup silent e parts =
      match walk e (parts.filter (fun s => s ≠ "")) with
      | some x => .ok (some x)
      | none => if silent then .ok none else .error .fileNotFound := by
  induction parts generalizing e with
  | nil => simp [PortalsFS.lookup, walk]
  | cons part rest ih =>
    by_cases hp : part = ""
    · simp [PortalsFS.lookup, hp, ih]
    · cases e with
      | file ct mt sz nm d =>
        simp [PortalsFS.lookup, hp, walk]
      | dir ct mt sz nm ents =>
        cases hg : mapGet ents part with
        | none => simp [PortalsFS.lookup, hp, walk, hg]
        | some c => simp [PortalsFS.lookup, hp, walk, hg, ih]

theorem updateAt_eq_updSegs (parts : List String) (e : Entry) (f : Entry → Entry) :
    updateAt e parts f = updSegs e (parts.filter (fun s => s ≠ "")) f := by
  induction parts generalizing e with
  | nil => simp [updateAt, updSegs]
  | cons part rest ih =>
    by_cases hp : part = ""
    · simp [updateAt, hp, ih]
    · cases e with
      | file ct mt sz nm d => simp [updateAt, updSegs, hp]
      | dir ct mt sz nm ents =>
        cases hg : mapGet ents part with
        | none => simp [updateAt, updSegs, hp, hg]
        | some c => simp [updateAt, updSegs, hp, hg, ih]

theorem walk_append (l₁ l₂ : List String) (e : Entry) :
    walk e (l₁ ++ l₂) = (walk e l₁).bind (fun x => walk x l₂) := by
  induction l₁ generalizing e with
  | nil => simp [walk]
  | cons s rest ih =>
    cases e with
    | file ct mt sz nm d => simp [walk]
    | dir ct mt sz nm ents =>
      cases hg : mapGet ents s with
      | none => simp [walk, hg]
      | some c => simp [walk, hg, ih]

theorem walk_updSegs_self (segs : List String) (e t : Entry) (f : Entry → Entry)
    (h : walk e segs = some t) :
    walk (updSegs e segs f) segs = some (f t) := by
  induction segs generalizing e with
  | nil =>
    simp [walk] at h
    subst h
    simp [updSegs, walk]
  | cons s rest ih =>
    cases e with
    | file ct mt sz nm d => simp [walk] at h
    | dir ct mt sz nm ents =>
      cases hg : mapGet ents s with
      | none => simp [walk, hg] at h
      | some c =>
        simp only [walk, hg] at h
        simp only [updSegs, hg, walk, mapGet_mapSet_self]
        exact ih c h

theorem lookupAsDirectory_ok_iff (root : Entry) (uri : Uri) (silent : Bool) (e : Entry) :
    PortalsFS.lookupAsDirectory root uri silent = .ok e ↔
      (walk root (segsOf uri.path) = some e ∧ e.isDir = true) := by
  unfold PortalsFS.lookupAsDirectory
  rw [lookup_eq_walk, segsOf_def]
  cases hw : walk root ((splitOnSlash uri.path).filter (fun s => s ≠ "")) with
  | none => cases silent <;> simp
  | some x =>
    cases x with
    | file ct mt sz nm d =>
      simp only [Entry.isDir]
      constructor
      · intro h
        cases h
      · rintro ⟨h, hd⟩
        injection h with h
        subst h
        cases hd
    | dir ct mt sz nm ents =>
      constructor
      · intro h
        injection h with h
        subst h
        simp [Entry.isDir]
      · rintro ⟨h, -⟩
        injection h with h
        subst h
        rfl

theorem stat_eq_walk (root : Entry) (uri : Uri) :
    PortalsFS.stat root uri =
      match walk root (segsOf uri.path) with
      | some e => .ok e
      | none => .error .fileNotFound := by
  unfold PortalsFS.stat
  rw [lookup_eq_walk, segsOf_def]
  cases walk root ((splitOnSlash uri.path).filter (fun s => s ≠ "")) <;> simp

theorem isDirty_saveData (fdm : List (String × FileData)) (k : String) :
    isDirty (saveData fdm k) k = false := by
  unfold isDirty saveData
  cases hg : mapGet fdm k with
  | none => simp [hg]
  | some fd => simp [mapGet_mapSet_self]

theorem walk_updateAt_setChild (root parent : Entry) (dirPath bname : String) (child : Entry)
    (hwp : walk root (segsOf dirPath) = some parent) (hd : parent.isDir = true) :
    walk (updateAt root (splitOnSlash dirPath) (setChild bname child))
      (segsOf dirPath ++ [bname]) = some child := by
  rw [updateAt_eq_updSegs, ← segsOf_def, walk_append,
    walk_updSegs_self (segsOf dirPath) root parent _ hwp]
  cases parent with
  | file ct mt sz nm d => cases hd
  | dir ct mt sz nm ents => simp [setChild, walk, mapGet_mapSet_self]

theorem walk_updateAt_addChildDir (root parent : Entry) (dirPath bname : String)
    (child : Entry) (now : Nat)
    (hwp : walk root (segsOf dirPath) = some parent) (hd : parent.isDir = true) :
    walk (updateAt root (splitOnSlash dirPath) (addChildDir bname child now))
      (segsOf dirPath ++ [bname]) = some child := by
  rw [updateAt_eq_updSegs, ← segsOf_def, walk_append,
    walk_updSegs_self (segsOf dirPath) root parent _ hwp]
  cases parent with
  | file ct mt sz nm d => cases hd
  | dir ct mt sz nm ents => simp [addChildDir, walk, mapGet_mapSet_self]

theorem mapGet_none_of_walk_child_none (parent : Entry) (bname : String)
    (h : walk parent [bname] = none) : mapGet parent.entriesOf bname = none := by
  cases parent with
  | file ct mt sz nm d => rfl
  | dir ct mt sz nm ents =>
    cases hg : mapGet ents bname with
    | none => simpa [Entry.entriesOf] using hg
    | some c => simp [walk, hg] at h

/-! ### Claim theorems -/

/-- C7: path lookup resolves a uri by splitting its path on slash,
skipping empty segments, and walking child maps from the single root;
for every path all of whose segments resolve it returns the reached
entry (the empty or all-slash path returns the root); on the first
unresolvable segment, non-silent mode fails with `FileNotFound` while
silent mode returns `undefined` without raising.  Stated as: `_lookup`
refines the spec-side `walk` over the nonempty segments. -/
theorem lookup_refines_walk (silent : Bool) (root : Entry) (p : String) :
    (PortalsFS.lookup silent root (splitOnSlash p) =
      match walk root (segsOf p) with
      | some e => .ok (some e)
      | none => if silent then .ok none else .error .fileNotFound) ∧
    PortalsFS.lookup silent root (splitOnSlash "") = .ok (some root) ∧
    PortalsFS.lookup silent root (splitOnSlash "///") = .ok (some root) := by
  refine ⟨?_, ?_, ?_⟩
  · rw [lookup_eq_walk, segsOf_def]
  · rw [lookup_eq_walk]
    rfl
  · rw [lookup_eq_walk]
    rfl

/-- C8: for every path with no entry in the tree, `stat` fails with
`FileNotFound` (within `stat` itself no lazy load runs, so absence alone
decides the failure); for every path with an entry, `stat` returns that
entry's metadata. -/
theorem stat_spec (root : Entry) (uri : Uri) :
    (walk root (segsOf uri.path) = none →
      PortalsFS.stat root uri = .error .fileNotFound) ∧
    (∀ e, walk root (segsOf uri.path) = some e → PortalsFS.stat root uri = .ok e) := by
  constructor
  · intro h
    rw [stat_eq_walk, h]
  · intro e h
    rw [stat_eq_walk, h]

theorem stat_spec_witness :
    PortalsFS.stat wRoot wMissUri = .error .fileNotFound ∧
    PortalsFS.stat wRoot wFileUri = .ok wFile :=
  ⟨(stat_spec wRoot wMissUri).1 (by rfl), (stat_spec wRoot wFileUri).2 wFile (by rfl)⟩

/-- C10: on a path whose strict leading part already resolves to a
`File` (segments remain after reaching the file), non-silent lookup —
and hence `stat` — fails with `FileNotFound`, not `FileNotADirectory`,
and silent lookup returns `undefined`. -/
theorem lookup_beyond_file_notFound (root : Entry) (uri : Uri) (pre suf : List String)
    (hsplit : segsOf uri.path = pre ++ suf) (hne : suf ≠ [])
    (e : Entry) (he : walk root pre = some e) (hf : e.isFile = true) :
    PortalsFS.stat root uri = .error .fileNotFound ∧
    PortalsFS.lookup true root (splitOnSlash uri.path) = .ok none := by
  have hwalk : walk root (segsOf uri.path) = none := by
    rw [hsplit, walk_append, he]
    cases e with
    | dir ct mt sz nm ents => cases hf
    | file ct mt sz nm d =>
      cases suf with
      | nil => exact absurd rfl hne
      | cons s rest => simp [walk]
  constructor
  · rw [stat_eq_walk, hwalk]
  · rw [lookup_eq_walk, ← segsOf_def, hwalk]
    rfl

theorem lookup_beyond_file_notFound_witness :
    PortalsFS.stat wRoot wDeepUri = .error .fileNotFound ∧
    PortalsFS.lookup true wRoot (splitOnSlash wDeepUri.path) = .ok none :=
  lookup_beyond_file_notFound wRoot wDeepUri ["site", "a.txt"] ["x"] (by rfl)
    (by decide) wFile (by rfl) (by rfl)

/-- C2: with a resolvable parent directory, `writeFile` fails with
`FileIsADirectory` when the target entry is a directory, with
`FileNotFound` when no target entry exists and `create` is false, and
with `FileExists` when a (non-directory) target exists with `create`
true and `overwrite` false — and in each failure the tree, the metadata
map and the event stream are left untouched. -/
theorem writeFile_guard_failures :
    (∀ root fdm uri content create overwrite now saveOk parent entry,
      PortalsFS.lookupParentDirectory root uri = .ok parent →
      mapGet parent.entriesOf (posixBasename uri.path) = some entry →
      entry.isDir = true →
      PortalsFS.writeFile root fdm uri content create overwrite now saveOk =
        ⟨.error (.fileIsADirectory uri), root, fdm, [], 0⟩) ∧
    (∀ root fdm uri content overwrite now saveOk parent,
      PortalsFS.lookupParentDirectory root uri = .ok parent →
      mapGet parent.entriesOf (posixBasename uri.path) = none →
      PortalsFS.writeFile root fdm uri content false overwrite now saveOk =
        ⟨.error .fileNotFound, root, fdm, [], 0⟩) ∧
    (∀ root fdm uri content now saveOk parent entry,
      PortalsFS.lookupParentDirectory root uri = .ok parent →
      mapGet parent.entriesOf (posixBasename uri.path) = some entry →
      entry.isDir = false →
      PortalsFS.writeFile root fdm uri content true false now saveOk =
        ⟨.error (.fileExists uri), root, fdm, [], 0⟩) := by
  refine ⟨?_, ?_, ?_⟩
  · intro root fdm uri content create overwrite now saveOk parent entry hp he hd
    simp [PortalsFS.writeFile, hp, he, hd]
  · intro root fdm uri content overwrite now saveOk parent hp he
    simp [PortalsFS.writeFile, hp, he]
  · intro root fdm uri content now saveOk parent entry hp he hd
    simp [PortalsFS.writeFile, hp, he, hd]

theorem writeFile_guard_failures_witness :
    PortalsFS.writeFile wRoot wFdmClean wDirUri [7] true true 5 true =
      ⟨.error (.fileIsADirectory wDirUri), wRoot, wFdmClean, [], 0⟩ ∧
    PortalsFS.writeFile wRoot wFdmClean wNewUri [7] false true 5 true =
      ⟨.error .fileNotFound, wRoot, wFdmClean, [], 0⟩ ∧
    PortalsFS.writeFile wRoot wFdmClean wFileUri [7] true false 5 true =
      ⟨.error (.fileExists wFileUri), wRoot, wFdmClean, [], 0⟩ :=
  ⟨writeFile_guard_failures.1 wRoot wFdmClean wDirUri [7] true true 5 true wRoot wSite
      (by rfl) (by rfl) (by rfl),
   writeFile_guard_failures.2.1 wRoot wFdmClean wNewUri [7] true 5 true wSite
      (by rfl) (by rfl),
   writeFile_guard_failures.2.2 wRoot wFdmClean wFileUri [7] 5 true wSite wFile
      (by rfl) (by rfl) (by rfl)⟩

/-- C9: `writeFile` on an existing dirty file whose remote save throws
propagates the error, leaves the tree (hence the file's data, size and
modification time), the metadata map (hence the dirty flag) and the
event stream untouched, after exactly the one failed save call. -/
theorem writeFile_save_failure_atomic
    (root : Entry) (fdm : List (String × FileData)) (uri : Uri) (content : List Nat)
    (create overwrite : Bool) (now : Nat) (parent entry : Entry)
    (hparent : PortalsFS.lookupParentDirectory root uri = .ok parent)
    (hentry : mapGet parent.entriesOf (posixBasename uri.path) = some entry)
    (hfile : entry.isDir = false)
    (hguard : (create && !overwrite) = false)
    (hdirty : isDirty fdm uri.fsPath = true) :
    PortalsFS.writeFile root fdm uri content create overwrite now false =
      ⟨.error .saveFailed, root, fdm, [], 1⟩ := by
  simp [PortalsFS.writeFile, hparent, hentry, hfile, hguard, hdirty]

theorem writeFile_save_failure_atomic_witness :
    PortalsFS.writeFile wRoot wFdmDirty wFileUri [7] true true 5 false =
      ⟨.error .saveFailed, wRoot, wFdmDirty, [], 1⟩ :=
  writeFile_save_failure_atomic wRoot wFdmDirty wFileUri [7] true true 5 wSite wFile
    (by rfl) (by rfl) (by rfl) (by rfl) (by rfl)

/-- C1: on a uri whose parent directory resolves — (a) if the target
exists and its `FileData` is marked dirty, `writeFile` performs exactly
one remote save call, and the dirty flag is cleared when the save
succeeds and only then (on failure the metadata map is unchanged and the
error propagates); (b) every successful call on an existing target sets
the entry's data to the content, its size to the content's byte length
and its mtime to the call time, emitting one `Changed` event; (c) a
newly created target gets the same data/size/mtime and a `Created` event
before the `Changed` event. -/
theorem writeFile_dirty_save_and_apply :
    (∀ root fdm uri content create overwrite now saveOk parent entry,
      PortalsFS.lookupParentDirectory root uri = .ok parent →
      mapGet parent.entriesOf (posixBasename uri.path) = some entry →
      entry.isDir = false → (create && !overwrite) = false →
      isDirty fdm uri.fsPath = true →
      (PortalsFS.writeFile root fdm uri content create overwrite now saveOk).saveCalls = 1 ∧
      (saveOk = true →
        isDirty (PortalsFS.writeFile root fdm uri content create overwrite now
          saveOk).fileDataMap uri.fsPath = false) ∧
      (saveOk = false →
        (PortalsFS.writeFile root fdm uri content create overwrite now
          saveOk).fileDataMap = fdm ∧
        (PortalsFS.writeFile root fdm uri content create overwrite now saveOk).result =
          .error .saveFailed)) ∧
    (∀ root fdm uri content create overwrite now saveOk parent entry,
      PortalsFS.lookupParentDirectory root uri = .ok parent →
      mapGet parent.entriesOf (posixBasename uri.path) = some entry →
      entry.isDir = false → (create && !overwrite) = false →
      (isDirty fdm uri.fsPath = true → saveOk = true) →
      segsOf uri.path = segsOf (posixDirname uri.path) ++ [posixBasename uri.path] →
      (PortalsFS.writeFile root fdm uri content create overwrite now saveOk).result =
        .ok () ∧
      (PortalsFS.writeFile root fdm uri content create overwrite now saveOk).events =
        [⟨.changed, uri⟩] ∧
      walk (PortalsFS.writeFile root fdm uri content create overwrite now saveOk).root
        (segsOf uri.path) =
        some (.file entry.ctime now content.length entry.name content)) ∧
    (∀ root fdm uri content overwrite now saveOk parent,
      PortalsFS.lookupParentDirectory root uri = .ok parent →
      mapGet parent.entriesOf (posixBasename uri.path) = none →
      segsOf uri.path = segsOf (posixDirname uri.path) ++ [posixBasename uri.path] →
      (PortalsFS.writeFile root fdm uri content true overwrite now saveOk).result =
        .ok () ∧
      (PortalsFS.writeFile root fdm uri content true overwrite now saveOk).events =
        [⟨.created, uri⟩, ⟨.changed, uri⟩] ∧
      walk (PortalsFS.writeFile root fdm uri content true overwrite now saveOk).root
        (segsOf uri.path) =
        some (.file now now content.length (posixBasename uri.path) content)) := by
  refine ⟨?_, ?_, ?_⟩
  · intro root fdm uri content create overwrite now saveOk parent entry hp he hf hg hdy
    cases saveOk with
    | false => simp [PortalsFS.writeFile, hp, he, hf, hg, hdy]
    | true => simp [PortalsFS.writeFile, hp, he, hf, hg, hdy, isDirty_saveData]
  · intro root fdm uri content create overwrite now saveOk parent entry hp he hf hg hds hsplit
    have hp' := hp
    unfold PortalsFS.lookupParentDirectory at hp'
    obtain ⟨hwp, hpdir⟩ :=
      (lookupAsDirectory_ok_iff root (uri.withPath (posixDirname uri.path)) false parent).mp hp'
    simp only [Uri.withPath] at hwp
    have hroot : (PortalsFS.writeFile root fdm uri content create overwrite now saveOk).root =
        updateAt root (splitOnSlash (posixDirname uri.path))
          (setChild (posixBasename uri.path)
            (Entry.file entry.ctime now content.length entry.name content)) := by
      cases hdy : isDirty fdm uri.fsPath with
      | false => simp [PortalsFS.writeFile, hp, he, hf, hg, hdy]
      | true => simp [PortalsFS.writeFile, hp, he, hf, hg, hdy, hds hdy]
    refine ⟨?_, ?_, ?_⟩
    · cases hdy : isDirty fdm uri.fsPath with
      | false => simp [PortalsFS.writeFile, hp, he, hf, hg, hdy]
      | true => simp [PortalsFS.writeFile, hp, he, hf, hg, hdy, hds hdy]
    · cases hdy : isDirty fdm uri.fsPath with
      | false => simp [PortalsFS.writeFile, hp, he, hf, hg, hdy]
      | true => simp [PortalsFS.writeFile, hp, he, hf, hg, hdy, hds hdy]
    · rw [hroot, hsplit]
      exact walk_updateAt_setChild root parent (posixDirname uri.path)
        (posixBasename uri.path) _ hwp hpdir
  · intro root fdm uri content overwrite now saveOk parent hp he hsplit
    have hp' := hp
    unfold PortalsFS.lookupParentDirectory at hp'
    obtain ⟨hwp, hpdir⟩ :=
      (lookupAsDirectory_ok_iff root (uri.withPath (posixDirname uri.path)) false parent).mp hp'
    simp only [Uri.withPath] at hwp
    refine ⟨by simp [PortalsFS.writeFile, hp, he],
      by simp [PortalsFS.writeFile, hp, he], ?_⟩
    have hroot : (PortalsFS.writeFile root fdm uri content true overwrite now
        saveOk).root = updateAt root (splitOnSlash (posixDirname uri.path))
          (setChild (posixBasename uri.path)
            (Entry.file now now content.length (posixBasename uri.path) content)) := by
      simp [PortalsFS.writeFile, hp, he]
    rw [hroot, hsplit]
    exact walk_updateAt_setChild root parent (posixDirname uri.path)
      (posixBasename uri.path) _ hwp hpdir

theorem writeFile_dirty_save_and_apply_witness :
    (PortalsFS.writeFile wRoot wFdmDirty wFileUri [7] true true 5 true).saveCalls = 1 ∧
    isDirty (PortalsFS.writeFile wRoot wFdmDirty wFileUri [7] true true 5
      true).fileDataMap wFileUri.fsPath = false ∧
    (PortalsFS.writeFile wRoot wFdmDirty wFileUri [7] true true 5 false).fileDataMap =
      wFdmDirty ∧
    (PortalsFS.writeFile wRoot wFdmDirty wFileUri [7] true true 5 true).result = .ok () ∧
    (PortalsFS.writeFile wRoot wFdmDirty wFileUri [7] true true 5 true).events =
      [⟨.changed, wFileUri⟩] ∧
    walk (PortalsFS.writeFile wRoot wFdmDirty wFileUri [7] true true 5 true).root
      (segsOf wFileUri.path) = some (.file 1 5 1 "a.txt" [7]) ∧
    (PortalsFS.writeFile wRoot wFdmClean wNewUri [7] true true 5 true).events =
      [⟨.created, wNewUri⟩, ⟨.changed, wNewUri⟩] ∧
    walk (PortalsFS.writeFile wRoot wFdmClean wNewUri [7] true true 5 true).root
      (segsOf wNewUri.path) = some (.file 5 5 1 "b.txt" [7]) :=
  ⟨(writeFile_dirty_save_and_apply.1 wRoot wFdmDirty wFileUri [7] true true 5 true wSite wFile
      (by rfl) (by rfl) (by rfl) (by rfl) (by rfl)).1,
   (writeFile_dirty_save_and_apply.1 wRoot wFdmDirty wFileUri [7] true true 5 true wSite wFile
      (by rfl) (by rfl) (by rfl) (by rfl) (by rfl)).2.1 rfl,
   ((writeFile_dirty_save_and_apply.1 wRoot wFdmDirty wFileUri [7] true true 5 false wSite wFile
      (by rfl) (by rfl) (by rfl) (by rfl) (by rfl)).2.2 rfl).1,
   (writeFile_dirty_save_and_apply.2.1 wRoot wFdmDirty wFileUri [7] true true 5 true wSite wFile
      (by rfl) (by rfl) (by rfl) (by rfl) (fun _ => rfl) (by rfl)).1,
   (writeFile_dirty_save_and_apply.2.1 wRoot wFdmDirty wFileUri [7] true true 5 true wSite wFile
      (by rfl) (by rfl) (by rfl) (by rfl) (fun _ => rfl) (by rfl)).2.1,
   (writeFile_dirty_save_and_apply.2.1 wRoot wFdmDirty wFileUri [7] true true 5 true wSite wFile
      (by rfl) (by rfl) (by rfl) (by rfl) (fun _ => rfl) (by rfl)).2.2,
   (writeFile_dirty_save_and_apply.2.2 wRoot wFdmClean wNewUri [7] true 5 true wSite
      (by rfl) (by rfl) (by rfl)).2.1,
   (writeFile_dirty_save_and_apply.2.2 wRoot wFdmClean wNewUri [7] true 5 true wSite
      (by rfl) (by rfl) (by rfl)).2.2⟩

/-- C3: `createDirectory` is idempotent — any existing entry at the uri
makes the call a no-op with no tree mutation and no events; on a miss
with a resolvable parent it inserts exactly one `Directory` entry under
the parent and fires `Changed` (parent) then `Created` (new directory);
a missing parent is a hard failure (the non-silent parent lookup's error
propagates and nothing changes); and a second call on the same uri is a
no-op emitting nothing. -/
theorem createDirectory_idempotent :
    (∀ root uri now e,
      PortalsFS.lookup true root (splitOnSlash uri.path) = .ok (some e) →
      PortalsFS.createDirectory root uri now = ⟨.ok (), root, []⟩) ∧
    (∀ root uri now parent,
      PortalsFS.lookup true root (splitOnSlash uri.path) = .ok none →
      PortalsFS.lookupAsDirectory root (uri.withPath (posixDirname uri.path)) false =
        .ok parent →
      segsOf uri.path = segsOf (posixDirname uri.path) ++ [posixBasename uri.path] →
      (PortalsFS.createDirectory root uri now).result = .ok () ∧
      (PortalsFS.createDirectory root uri now).events =
        [⟨.changed, uri.withPath (posixDirname uri.path)⟩, ⟨.created, uri⟩] ∧
      walk (PortalsFS.createDirectory root uri now).root (segsOf uri.path) =
        some (.dir now now 0 (posixBasename uri.path) []) ∧
      (∀ p', walk (PortalsFS.createDirectory root uri now).root
          (segsOf (posixDirname uri.path)) = some p' →
        countKey p'.entriesOf (posixBasename uri.path) = 1) ∧
      (∀ now', PortalsFS.createDirectory
          (PortalsFS.createDirectory root uri now).root uri now' =
        ⟨.ok (), (PortalsFS.createDirectory root uri now).root, []⟩)) ∧
    (∀ root uri now err,
      PortalsFS.lookup true root (splitOnSlash uri.path) = .ok none →
      PortalsFS.lookupAsDirectory root (uri.withPath (posixDirname uri.path)) false =
        .error err →
      PortalsFS.createDirectory root uri now = ⟨.error err, root, []⟩) := by
  refine ⟨?_, ?_, ?_⟩
  · intro root uri now e h
    simp [PortalsFS.createDirectory, h]
  · intro root uri now parent hsil hpd hsplit
    obtain ⟨hwp, hpdir⟩ :=
      (lookupAsDirectory_ok_iff root (uri.withPath (posixDirname uri.path)) false parent).mp hpd
    simp only [Uri.withPath] at hwp
    have hwn : walk root (segsOf uri.path) = none := by
      rw [lookup_eq_walk, ← segsOf_def] at hsil
      cases hw : walk root (segsOf uri.path) with
      | none => rfl
      | some x => simp [hw] at hsil
    have hm : mapGet parent.entriesOf (posixBasename uri.path) = none := by
      have h2 : walk root (segsOf (posixDirname uri.path) ++ [posixBasename uri.path]) =
          none := by rw [← hsplit]; exact hwn
      rw [walk_append, hwp] at h2
      exact mapGet_none_of_walk_child_none parent _ (by simpa using h2)
    have hroot : (PortalsFS.createDirectory root uri now).root =
        updateAt root (splitOnSlash (posixDirname uri.path))
          (addChildDir (posixBasename uri.path)
            (Entry.dir now now 0 (posixBasename uri.path) []) now) := by
      simp [PortalsFS.createDirectory, hsil, hpd]
      simp [Uri.withPath]
    have hwnew : walk (PortalsFS.createDirectory root uri now).root (segsOf uri.path) =
        some (.dir now now 0 (posixBasename uri.path) []) := by
      rw [hroot, hsplit]
      exact walk_updateAt_addChildDir root parent _ _ _ now hwp hpdir
    refine ⟨?_, ?_, hwnew, ?_, ?_⟩
    · simp [PortalsFS.createDirectory, hsil, hpd]
    · simp [PortalsFS.createDirectory, hsil, hpd]
    · intro p' hpw
      have hwd : walk (PortalsFS.createDirectory root uri now).root
          (segsOf (posixDirname uri.path)) =
          some (addChildDir (posixBasename uri.path)
            (Entry.dir now now 0 (posixBasename uri.path) []) now parent) := by
        rw [hroot, updateAt_eq_updSegs, ← segsOf_def]
        exact walk_updSegs_self _ _ _ _ hwp
      rw [hwd] at hpw
      injection hpw with hpw
      subst hpw
      cases parent with
      | file ct mt sz nm d => cases hpdir
      | dir ct mt sz nm ents =>
        have hm' : mapGet ents (posixBasename uri.path) = none := by
          simpa [Entry.entriesOf] using hm
        simpa [addChildDir, Entry.entriesOf] using
          countKey_mapSet_of_none ents (posixBasename uri.path)
            (Entry.dir now now 0 (posixBasename uri.path) []) hm'
    · intro now'
      have hsil2 : PortalsFS.lookup true (PortalsFS.createDirectory root uri now).root
          (splitOnSlash uri.path) =
          .ok (some (.dir now now 0 (posixBasename uri.path) [])) := by
        rw [lookup_eq_walk, ← segsOf_def, hwnew]
      rw [hroot] at hsil2 ⊢
      simp [PortalsFS.createDirectory, hsil2]
  · intro root uri now err hsil herr
    simp [PortalsFS.createDirectory, hsil, herr]

theorem createDirectory_idempotent_witness :
    PortalsFS.createDirectory wRoot wDirUri 9 = ⟨.ok (), wRoot, []⟩ ∧
    (PortalsFS.createDirectory wRoot wSubUri 9).result = .ok () ∧
    (PortalsFS.createDirectory wRoot wSubUri 9).events =
      [⟨.changed, wSubUri.withPath "/site"⟩, ⟨.created, wSubUri⟩] ∧
    walk (PortalsFS.createDirectory wRoot wSubUri 9).root (segsOf wSubUri.path) =
      some (.dir 9 9 0 "sub" []) ∧
    countKey (Entry.dir 0 9 2 "site"
      [("a.txt", wFile), ("sub", Entry.dir 9 9 0 "sub" [])]).entriesOf "sub" = 1 ∧
    PortalsFS.createDirectory (PortalsFS.createDirectory wRoot wSubUri 9).root wSubUri 11 =
      ⟨.ok (), (PortalsFS.createDirectory wRoot wSubUri 9).root, []⟩ ∧
    PortalsFS.createDirectory wRoot wOrphanUri 9 = ⟨.error .fileNotFound, wRoot, []⟩ :=
  ⟨createDirectory_idempotent.1 wRoot wDirUri 9 wSite (by rfl),
   (createDirectory_idempotent.2.1 wRoot wSubUri 9 wSite (by rfl) (by rfl) (by rfl)).1,
   (createDirectory_idempotent.2.1 wRoot wSubUri 9 wSite (by rfl) (by rfl) (by rfl)).2.1,
   (createDirectory_idempotent.2.1 wRoot wSubUri 9 wSite (by rfl) (by rfl) (by rfl)).2.2.1,
   (createDirectory_idempotent.2.1 wRoot wSubUri 9 wSite (by rfl) (by rfl)
      (by rfl)).2.2.2.1 (Entry.dir 0 9 2 "site"
        [("a.txt", wFile), ("sub", Entry.dir 9 9 0 "sub" [])]) (by rfl),
   (createDirectory_idempotent.2.1 wRoot wSubUri 9 wSite (by rfl) (by rfl)
      (by rfl)).2.2.2.2 11,
   createDirectory_idempotent.2.2 wRoot wOrphanUri 9 .fileNotFound (by rfl) (by rfl)⟩

/-- C4: `readFile` returns the file's bytes on a hit; on a
`FileNotFound` miss whose uri lies under the established root (context
set, uri string containing the root directory string, recognized entity
folder name) it triggers exactly one full remote load and retries the
lookup exactly once, the retry's outcome propagating as the result; on
every other miss it returns an empty byte sequence with no load. -/
theorem readFile_miss_policy :
    (∀ ctx load root uri f,
      PortalsFS.lookupAsFile root uri false = .ok f →
      PortalsFS.readFile ctx load root uri = ⟨.ok f.data, root, 0⟩) ∧
    (∀ ctx load root uri,
      PortalsFS.lookupAsFile root uri false = .error .fileNotFound →
      (ctx.isContextSet && hasSub uri.str ctx.rootDirectory
        && ctx.hasEntityFolderName uri.str) = true →
      (PortalsFS.readFile ctx load root uri).loadCalls = 1 ∧
      (PortalsFS.readFile ctx load root uri).root = load root ∧
      (∀ f, PortalsFS.lookupAsFile (load root) uri false = .ok f →
        (PortalsFS.readFile ctx load root uri).result = .ok f.data) ∧
      (∀ e, PortalsFS.lookupAsFile (load root) uri false = .error e →
        (PortalsFS.readFile ctx load root uri).result = .error e)) ∧
    (∀ ctx load root uri,
      PortalsFS.lookupAsFile root uri false = .error .fileNotFound →
      (ctx.isContextSet && hasSub uri.str ctx.rootDirectory
        && ctx.hasEntityFolderName uri.str) = false →
      PortalsFS.readFile ctx load root uri = ⟨.ok [], root, 0⟩) := by
  refine ⟨?_, ?_, ?_⟩
  · intro ctx load root uri f h
    simp [PortalsFS.readFile, h]
  · intro ctx load root uri h hc
    refine ⟨?_, ?_, ?_, ?_⟩
    · cases hr : PortalsFS.lookupAsFile (load root) uri false with
      | ok f => simp [PortalsFS.readFile, h, hc, hr]
      | error e => simp [PortalsFS.readFile, h, hc, hr]
    · cases hr : PortalsFS.lookupAsFile (load root) uri false with
      | ok f => simp [PortalsFS.readFile, h, hc, hr]
      | error e => simp [PortalsFS.readFile, h, hc, hr]
    · intro f hf
      simp [PortalsFS.readFile, h, hc, hf]
    · intro e he
      simp [PortalsFS.readFile, h, hc, he]
  · intro ctx load root uri h hc
    simp [PortalsFS.readFile, h, hc]

theorem readFile_miss_policy_witness :
    PortalsFS.readFile wCtx wLoad wRoot wFileUri = ⟨.ok [10, 20], wRoot, 0⟩ ∧
    (PortalsFS.readFile wCtx wLoad wEmptyRoot wHomeUri).loadCalls = 1 ∧
    (PortalsFS.readFile wCtx wLoad wEmptyRoot wHomeUri).root = wLoad wEmptyRoot ∧
    (PortalsFS.readFile wCtx wLoad wEmptyRoot wHomeUri).result = .ok [] ∧
    PortalsFS.readFile wCtxOff wLoad wEmptyRoot wHomeUri = ⟨.ok [], wEmptyRoot, 0⟩ :=
  ⟨readFile_miss_policy.1 wCtx wLoad wRoot wFileUri wFile (by rfl),
   (readFile_miss_policy.2.1 wCtx wLoad wEmptyRoot wHomeUri (by rfl) (by rfl)).1,
   (readFile_miss_policy.2.1 wCtx wLoad wEmptyRoot wHomeUri (by rfl) (by rfl)).2.1,
   (readFile_miss_policy.2.1 wCtx wLoad wEmptyRoot wHomeUri (by rfl) (by rfl)).2.2.1
     wHomeFile (by rfl),
   readFile_miss_policy.2.2 wCtxOff wLoad wEmptyRoot wHomeUri (by rfl) (by rfl)⟩

/-- C5 counterexample: with the context set, the configured root
matching, and the tree empty, `readDirectory` on the root uri triggers
the remote load (exactly one call) and returns the empty listing it
accumulated before the failure — it does not re-resolve the directory,
whose post-load listing is nonempty, refuting "re-resolves the
directory before returning". -/
theorem readDirectory_no_reresolve_cex :
    (PortalsFS.readDirectory wCtx wLoad wEmptyRoot wRootUri).loadCalls = 1 ∧
    (PortalsFS.readDirectory wCtx wLoad wEmptyRoot wRootUri).listing = [] ∧
    (PortalsFS.readDirectory wCtx wLoad (wLoad wEmptyRoot) wRootUri).listing =
      [("home.html", FileType.file)] ∧
    ([] : List (String × FileType)) ≠ [("home.html", FileType.file)] :=
  ⟨rfl, rfl, rfl, by decide⟩

/-- C5 (amended): `readDirectory` returns the (name, type) pairs of the
directory's children on a hit, with no load; on a `FileNotFound` miss
with the context set and the uri string equal (case-insensitively) to
the configured root it triggers exactly one full remote load and then
returns the empty listing accumulated before the failure, without
re-resolving (the refreshed tree is only observed by a later call); in
every other failure case it returns the empty listing with no load. -/
theorem readDirectory_miss_policy :
    (∀ ctx load root uri d,
      PortalsFS.lookupAsDirectory root uri false = .ok d →
      PortalsFS.readDirectory ctx load root uri =
        ⟨d.entriesOf.map (fun p => (p.1, p.2.type)), root, 0⟩) ∧
    (∀ ctx load root uri,
      PortalsFS.lookupAsDirectory root uri false = .error .fileNotFound →
      (ctx.isContextSet && (toLowerStr uri.str == toLowerStr ctx.rootDirectory)) = true →
      PortalsFS.readDirectory ctx load root uri = ⟨[], load root, 1⟩) ∧
    (∀ ctx load root uri,
      PortalsFS.lookupAsDirectory root uri false = .error .fileNotFound →
      (ctx.isContextSet && (toLowerStr uri.str == toLowerStr ctx.rootDirectory)) = false →
      PortalsFS.readDirectory ctx load root uri = ⟨[], root, 0⟩) ∧
    (∀ ctx load root uri u',
      PortalsFS.lookupAsDirectory root uri false = .error (.fileNotADirectory u') →
      PortalsFS.readDirectory ctx load root uri = ⟨[], root, 0⟩) := by
  refine ⟨?_, ?_, ?_, ?_⟩
  · intro ctx load root uri d h
    simp [PortalsFS.readDirectory, h]
  · intro ctx load root uri h hc
    simp [PortalsFS.readDirectory, h, hc]
  · intro ctx load root uri h hc
    simp [PortalsFS.readDirectory, h, hc]
  · intro ctx load root uri u' h
    simp [PortalsFS.readDirectory, h]

theorem readDirectory_miss_policy_witness :
    PortalsFS.readDirectory wCtx wLoad wRoot wDirUri =
      ⟨[("a.txt", FileType.file)], wRoot, 0⟩ ∧
    PortalsFS.readDirectory wCtx wLoad wEmptyRoot wRootUri = ⟨[], wLoadedRoot, 1⟩ ∧
    PortalsFS.readDirectory wCtxOff wLoad wEmptyRoot wRootUri = ⟨[], wEmptyRoot, 0⟩ ∧
    PortalsFS.readDirectory wCtx wLoad wRoot wFileUri = ⟨[], wRoot, 0⟩ :=
  ⟨readDirectory_miss_policy.1 wCtx wLoad wRoot wDirUri wSite (by rfl),
   readDirectory_miss_policy.2.1 wCtx wLoad wEmptyRoot wRootUri (by rfl) (by rfl),
   readDirectory_miss_policy.2.2.1 wCtxOff wLoad wEmptyRoot wRootUri (by rfl) (by rfl),
   readDirectory_miss_policy.2.2.2 wCtx wLoad wRoot wFileUri wFileUri (by rfl)⟩

/-- C6 (spec-modelled): across a fetch pass over the configured entity
types, a transport failure (non-ok status) or a null/absent result
payload for one entity type surfaces exactly one error dialog titled
"There was a problem opening the workspace" plus failure telemetry
(transport failures additionally exactly one "Failed to fetch file
content." notification); the whole pass is the concatenation of the
per-entity traces, so it resolves with the remaining entity types still
processed, and a succeeding entity type records no dialog and no
failure telemetry. -/
theorem fetchPass_partial_failure :
    (∀ pre r post,
      fetchDataFromDataverseAndUpdateVFS (pre ++ r :: post) =
        fetchDataFromDataverseAndUpdateVFS pre ++ fetchEntity r ++
          fetchDataFromDataverseAndUpdateVFS post) ∧
    (∀ r : FetchResponse, r.ok = false ∨ r.value = none →
      countDialogs (fetchEntity r) "There was a problem opening the workspace" = 1 ∧
      1 ≤ countFailures (fetchEntity r)) ∧
    (∀ r : FetchResponse, r.ok = false →
      countNotifs (fetchEntity r) "Failed to fetch file content." = 1) ∧
    (∀ (r : FetchResponse) (n : Nat), r.ok = true → r.value = some n →
      countDialogs (fetchEntity r) "There was a problem opening the workspace" = 0 ∧
      countFailures (fetchEntity r) = 0) := by
  refine ⟨?_, ?_, ?_, ?_⟩
  · intro pre r post
    induction pre with
    | nil => simp [fetchDataFromDataverseAndUpdateVFS]
    | cons q rest ih => simp [fetchDataFromDataverseAndUpdateVFS, ih]
  · intro r hr
    rcases hr with h | h
    · simp [fetchEntity, h, countDialogs, countFailures]
    · cases hok : r.ok with
      | false => simp [fetchEntity, hok, countDialogs, countFailures]
      | true => simp [fetchEntity, hok, h, countDialogs, countFailures]
  · intro r h
    simp [fetchEntity, h, countNotifs]
  · intro r n hok hv
    simp [fetchEntity, hok, hv, countDialogs, countFailures]

theorem fetchPass_partial_failure_witness :
    fetchDataFromDataverseAndUpdateVFS
        ([⟨true, some 2⟩] ++ ⟨false, none⟩ :: [⟨true, some 1⟩]) =
      fetchDataFromDataverseAndUpdateVFS [⟨true, some 2⟩] ++ fetchEntity ⟨false, none⟩ ++
        fetchDataFromDataverseAndUpdateVFS [⟨true, some 1⟩] ∧
    countDialogs (fetchEntity ⟨false, none⟩)
      "There was a problem opening the workspace" = 1 ∧
    1 ≤ countFailures (fetchEntity ⟨false, none⟩) ∧
    countNotifs (fetchEntity ⟨false, none⟩) "Failed to fetch file content." = 1 ∧
    countDialogs (fetchEntity ⟨true, some 1⟩)
      "There was a problem opening the workspace" = 0 ∧
    countFailures (fetchEntity ⟨true, some 1⟩) = 0 :=
  ⟨fetchPass_partial_failure.1 [⟨true, some 2⟩] ⟨false, none⟩ [⟨true, some 1⟩],
   (fetchPass_partial_failure.2.1 ⟨false, none⟩ (Or.inl rfl)).1,
   (fetchPass_partial_failure.2.1 ⟨false, none⟩ (Or.inl rfl)).2,
   fetchPass_partial_failure.2.2.1 ⟨false, none⟩ rfl,
   (fetchPass_partial_failure.2.2.2 ⟨true, some 1⟩ 1 rfl rfl).1,
   (fetchPass_partial_failure.2.2.2 ⟨true, some 1⟩ 1 rfl rfl).2⟩
